import Mathlib

/-!
# Verification of the Verhoeff checksum library (verhoeff.go)

Shallow embedding of the Go package `verhoeff` (file `verhoeff.go`).
Go strings are modelled as `List Char` (a Go `for … range` loop iterates
over runes); Go `int`/`int64` are modelled as `Int` with the 64-bit wrap
made explicit at the one point where it matters (negation of the minimum
value); fallible functions return `Except GoError`.
-/

namespace Verhoeff

/-- Multiplication table `d` of the dihedral group D5 (verhoeff.go lines 20-31). -/
def dTable : List (List Nat) :=
  [[0, 1, 2, 3, 4, 5, 6, 7, 8, 9],
   [1, 2, 3, 4, 0, 6, 7, 8, 9, 5],
   [2, 3, 4, 0, 1, 7, 8, 9, 5, 6],
   [3, 4, 0, 1, 2, 8, 9, 5, 6, 7],
   [4, 0, 1, 2, 3, 9, 5, 6, 7, 8],
   [5, 9, 8, 7, 6, 0, 4, 3, 2, 1],
   [6, 5, 9, 8, 7, 1, 0, 4, 3, 2],
   [7, 6, 5, 9, 8, 2, 1, 0, 4, 3],
   [8, 7, 6, 5, 9, 3, 2, 1, 0, 4],
   [9, 8, 7, 6, 5, 4, 3, 2, 1, 0]]

/-- Permutation table `p` (verhoeff.go lines 34-43). -/
def pTable : List (List Nat) :=
  [[0, 1, 2, 3, 4, 5, 6, 7, 8, 9],
   [1, 5, 7, 6, 2, 8, 3, 0, 9, 4],
   [5, 8, 0, 3, 7, 9, 6, 1, 4, 2],
   [8, 9, 1, 6, 0, 4, 3, 5, 2, 7],
   [9, 4, 5, 3, 1, 2, 6, 8, 7, 0],
   [4, 2, 8, 6, 5, 7, 3, 9, 0, 1],
   [2, 7, 9, 3, 8, 0, 6, 4, 1, 5],
   [7, 0, 4, 6, 9, 1, 3, 2, 5, 8]]

/-- Inverse table `inv` (verhoeff.go line 46). -/
def invTable : List Nat := [0, 4, 3, 2, 1, 5, 6, 7, 8, 9]

/-- `d[a][b]`. Out-of-range indices (which would panic in Go and are
unreachable in the source's uses) default to 0. -/
def d (a b : Nat) : Nat := (dTable.getD a []).getD b 0

/-- `p[r][x]`, with the same out-of-range convention as `d`. -/
def p (r x : Nat) : Nat := (pTable.getD r []).getD x 0

/-- `inv[c]`, with the same out-of-range convention as `d`. -/
def inv (c : Nat) : Nat := invTable.getD c 0

/-- The indexed loop body shared by `calculateChecksum` and
`validateChecksum` in the source: starting at loop index `i`, repeatedly
perform `c = d[c][p[i % 8][digit]]` and increment `i`.
`validateChecksum`'s loop (`p[i % 8]`, `i` from 0) is `verhoeffAux c 0`;
`calculateChecksum`'s loop (`p[(i+1) % 8]`, `i` from 0) is `verhoeffAux c 1`,
since `(0+1) % 8, (1+1) % 8, …` are exactly the rows visited from index 1. -/
def verhoeffAux : Nat → Nat → List Nat → Nat
  | c, _, [] => c
  | c, i, x :: xs => verhoeffAux (d c (p (i % 8) x)) (i + 1) xs

/-- `calculateChecksum` (verhoeff.go lines 143-155): fold over the reversed
digit list with permutation rows `(i+1) % 8`, then apply `inv`. -/
def calculateChecksum (digits : List Nat) : Nat :=
  inv (verhoeffAux 0 1 digits.reverse)

/-- `validateChecksum` (verhoeff.go lines 158-174): `false` on the empty
list, otherwise fold over the reversed digit list with permutation rows
`i % 8` and compare the final state with 0. -/
def validateChecksum (digits : List Nat) : Bool :=
  if digits.length = 0 then false
  else verhoeffAux 0 0 digits.reverse == 0

/-- The distinct error values the source can return, one constructor per
distinct `errors.New` message in verhoeff.go. -/
inductive GoError where
  /-- "input contains non-digit characters" (stringToDigits) -/
  | nonDigitChars : GoError
  /-- "input contains invalid digit" (sliceToDigits) -/
  | invalidDigit : GoError
  /-- "empty input" (ValidateString / ValidateSlice) -/
  | emptyInput : GoError
  /-- "aadhaar numbers should be 12 digits in length" (ValidateAadhaar) -/
  | aadhaarLength : GoError
  /-- "aadhaar numbers must contain only numbers" (ValidateAadhaar) -/
  | aadhaarNonNumeric : GoError
deriving DecidableEq, Repr

deriving instance DecidableEq for Except

/-- The ranges of Unicode category Nd (decimal digit), Unicode 15.0.0 as
used by Go 1.21's `unicode` package. Each pair is an inclusive range of
code points. -/
def ndRanges : List (Nat × Nat) :=
  [(0x30, 0x39), (0x660, 0x669), (0x6F0, 0x6F9), (0x7C0, 0x7C9),
   (0x966, 0x96F), (0x9E6, 0x9EF), (0xA66, 0xA6F), (0xAE6, 0xAEF),
   (0xB66, 0xB6F), (0xBE6, 0xBEF), (0xC66, 0xC6F), (0xCE6, 0xCEF),
   (0xD66, 0xD6F), (0xDE6, 0xDEF), (0xE50, 0xE59), (0xED0, 0xED9),
   (0xF20, 0xF29), (0x1040, 0x1049), (0x1090, 0x1099), (0x17E0, 0x17E9),
   (0x1810, 0x1819), (0x1946, 0x194F), (0x19D0, 0x19D9), (0x1A80, 0x1A89),
   (0x1A90, 0x1A99), (0x1B50, 0x1B59), (0x1BB0, 0x1BB9), (0x1C40, 0x1C49),
   (0x1C50, 0x1C59), (0xA620, 0xA629), (0xA8D0, 0xA8D9), (0xA900, 0xA909),
   (0xA9D0, 0xA9D9), (0xA9F0, 0xA9F9), (0xAA50, 0xAA59), (0xABF0, 0xABF9),
   (0xFF10, 0xFF19), (0x104A0, 0x104A9), (0x10D30, 0x10D39),
   (0x11066, 0x1106F), (0x110F0, 0x110F9), (0x11136, 0x1113F),
   (0x111D0, 0x111D9), (0x112F0, 0x112F9), (0x11450, 0x11459),
   (0x114D0, 0x114D9), (0x11650, 0x11659), (0x116C0, 0x116C9),
   (0x11730, 0x11739), (0x118E0, 0x118E9), (0x11950, 0x11959),
   (0x11C50, 0x11C59), (0x11D50, 0x11D59), (0x11DA0, 0x11DA9),
   (0x11F50, 0x11F59), (0x16A60, 0x16A69), (0x16AC0, 0x16AC9),
   (0x16B50, 0x16B59), (0x1D7CE, 0x1D7FF), (0x1E140, 0x1E149),
   (0x1E2F0, 0x1E2F9), (0x1E4F0, 0x1E4F9), (0x1E950, 0x1E959),
   (0x1FBF0, 0x1FBF9)]

/-- Go's `unicode.IsDigit`: for runes up to MaxLatin1 (0xFF) just the ASCII
digit test, otherwise membership in category Nd. -/
def isUnicodeDigit (c : Char) : Bool :=
  if c.toNat ≤ 0xFF then decide (48 ≤ c.toNat) && decide (c.toNat ≤ 57)
  else ndRanges.any (fun r => decide (r.1 ≤ c.toNat) && decide (c.toNat ≤ r.2))

/-- The effect of `digit, _ := strconv.Atoi(string(char))` in the source:
`Atoi` on a one-rune string returns the digit value for ASCII `0`-`9` and
(0, error) otherwise; the source discards the error, so every non-ASCII
rune contributes 0. -/
def charAtoi (c : Char) : Nat :=
  if 48 ≤ c.toNat ∧ c.toNat ≤ 57 then c.toNat - 48 else 0

/-- `stringToDigits` (verhoeff.go lines 51-65): scan the runes left to
right, rejecting the string at the first rune that is not a Unicode digit,
otherwise collecting `charAtoi` of each rune. -/
def stringToDigits : List Char → Except GoError (List Nat)
  | [] => Except.ok []
  | c :: cs =>
      if isUnicodeDigit c then
        match stringToDigits cs with
        | Except.ok ds => Except.ok (charAtoi c :: ds)
        | Except.error e => Except.error e
      else Except.error GoError.nonDigitChars

/-- The digit-accumulation loop of `intToDigits`: the decimal digits of a
positive number, most significant first (`[]` for 0, matching the source's
`for temp > 0` count loop, which produces an empty slice when the loop
body never runs). -/
def msfDigits (m : Nat) : List Nat :=
  if h : m = 0 then [] else msfDigits (m / 10) ++ [m % 10]
termination_by m
decreasing_by exact Nat.div_lt_self (Nat.pos_of_ne_zero h) (by norm_num)

/-- Go 64-bit negation `n = -n`: exact except at the minimum value
`-2^63`, where two's-complement negation wraps to `-2^63` itself. -/
def wrapNeg64 (n : Int) : Int :=
  if -n ≥ 2 ^ 63 then -n - 2 ^ 64 else -n

/-- `intToDigits` (verhoeff.go lines 68-93), for a 64-bit `int`:
0 yields `[0]`; a negative argument is negated (with 64-bit wrap) before
the digit loop; an argument still negative after that step (only
`-2^63`) makes the digit loop produce an empty slice. -/
def intToDigits (n : Int) : List Nat :=
  if n = 0 then [0]
  else msfDigits (if n < 0 then wrapNeg64 n else n).toNat

/-- `int64ToDigits` (verhoeff.go lines 96-121): identical body to
`intToDigits`. -/
def int64ToDigits (n : Int) : List Nat :=
  if n = 0 then [0]
  else msfDigits (if n < 0 then wrapNeg64 n else n).toNat

/-- `sliceToDigits` (verhoeff.go lines 124-133): reject the slice at the
first element outside `[0, 9]`. -/
def sliceToDigits : List Int → Except GoError (List Nat)
  | [] => Except.ok []
  | x :: xs =>
      if x < 0 ∨ x > 9 then Except.error GoError.invalidDigit
      else
        match sliceToDigits xs with
        | Except.ok ds => Except.ok (x.toNat :: ds)
        | Except.error e => Except.error e

/-- `strconv.Itoa` restricted to non-negative values: the decimal digit
characters of `m`, most significant first. -/
def itoaNat (m : Nat) : List Char :=
  if m < 10 then [Char.ofNat (48 + m)]
  else itoaNat (m / 10) ++ [Char.ofNat (48 + m % 10)]
termination_by m
decreasing_by exact Nat.div_lt_self (by omega) (by norm_num)

/-- `strconv.Itoa` on a 64-bit int: a minus sign followed by the digits of
the absolute value when negative. -/
def itoaInt (n : Int) : List Char :=
  if n < 0 then '-' :: itoaNat (-n).toNat else itoaNat n.toNat

/-- Go `len` on a string: the number of UTF-8 bytes. -/
def goStrLen (s : List Char) : Nat := (s.map Char.utf8Size).sum

/-- `GenerateFromString` (verhoeff.go lines 177-183). -/
def GenerateFromString (s : List Char) : Except GoError Nat :=
  match stringToDigits s with
  | Except.ok ds => Except.ok (calculateChecksum ds)
  | Except.error e => Except.error e

/-- `GenerateInt` (verhoeff.go lines 186-189). -/
def GenerateInt (n : Int) : Nat := calculateChecksum (intToDigits n)

/-- `GenerateInt64` (verhoeff.go lines 192-195). -/
def GenerateInt64 (n : Int) : Nat := calculateChecksum (int64ToDigits n)

/-- `ValidateString` (verhoeff.go lines 226-235). -/
def ValidateString (s : List Char) : Except GoError Bool :=
  match stringToDigits s with
  | Except.ok ds =>
      if ds.length = 0 then Except.error GoError.emptyInput
      else Except.ok (validateChecksum ds)
  | Except.error e => Except.error e

/-- `ValidateSlice` (verhoeff.go lines 250-259). -/
def ValidateSlice (l : List Int) : Except GoError Bool :=
  match sliceToDigits l with
  | Except.ok ds =>
      if ds.length = 0 then Except.error GoError.emptyInput
      else Except.ok (validateChecksum ds)
  | Except.error e => Except.error e

/-- `ValidateAadhaar` (verhoeff.go lines 283-300): byte-length gate, digit
extraction, then compare the last digit with the checksum of the first
eleven. -/
def ValidateAadhaar (s : List Char) : Except GoError Bool :=
  if goStrLen s ≠ 12 then Except.error GoError.aadhaarLength
  else
    match stringToDigits s with
    | Except.error _ => Except.error GoError.aadhaarNonNumeric
    | Except.ok ds =>
        Except.ok (ds.getD (ds.length - 1) 0 == calculateChecksum (ds.take (ds.length - 1)))

/-- `AppendChecksumString` (verhoeff.go lines 303-309). -/
def AppendChecksumString (s : List Char) : Except GoError (List Char) :=
  match GenerateFromString s with
  | Except.ok cs => Except.ok (s ++ itoaNat cs)
  | Except.error e => Except.error e

/-- `AppendChecksumInt` (verhoeff.go lines 312-315). -/
def AppendChecksumInt (n : Int) : List Char :=
  itoaInt n ++ itoaNat (GenerateInt n)

/-- An ASCII decimal digit character `0`-`9`: the spec's notion of a
"decimal digit character" of a textual input. -/
def isAsciiDigit (c : Char) : Bool :=
  decide (48 ≤ c.toNat) && decide (c.toNat ≤ 57)

/-- The fold described by the spec for generation: over `R` (the reversed
digit sequence), `c = d[c][p[(i+1) mod 8][R[i]]]` for `i` from 0 to
`L-1`, starting from `c = 0`. -/
def specFoldGen (R : List Nat) : Nat :=
  ((List.range R.length).zip R).foldl (fun c ix => d c (p ((ix.1 + 1) % 8) ix.2)) 0

/-- The fold described by the spec for validation: over `R`,
`c = d[c][p[i mod 8][R[i]]]` for `i` from 0 to `L-1`, starting from
`c = 0` (no `+1` offset). -/
def specFoldVal (R : List Nat) : Nat :=
  ((List.range R.length).zip R).foldl (fun c ix => d c (p (ix.1 % 8) ix.2)) 0

/-! ## Reference scenarios from the spec -/

example : calculateChecksum [2, 3, 6] = 3 := by decide
example : validateChecksum [2, 3, 6, 3] = true := by decide
example : validateChecksum [2, 3, 6, 4] = false := by decide
example : calculateChecksum [1, 2, 3, 4, 5] = 1 := by decide
example : calculateChecksum [0] = 4 := by decide
example : calculateChecksum [] = 0 := by decide

/-! ## Bounds: every table lookup and every fold state stays in `[0, 9]` -/

lemma getD_le_nine {l : List Nat} (h : ∀ x ∈ l, x ≤ 9) (i : Nat) :
    l.getD i 0 ≤ 9 := by
  rcases Nat.lt_or_ge i l.length with hi | hi
  · rw [List.getD_eq_getElem _ _ hi]
    exact h _ (List.getElem_mem hi)
  · rw [List.getD_eq_default _ _ hi]
    omega

lemma d_le9 (a b : Nat) : d a b ≤ 9 := by
  unfold d
  apply getD_le_nine
  intro x hx
  rcases Nat.lt_or_ge a dTable.length with ha | ha
  · rw [List.getD_eq_getElem _ _ ha] at hx
    have hrow : dTable[a] ∈ dTable := List.getElem_mem ha
    have : ∀ row ∈ dTable, ∀ y ∈ row, y ≤ 9 := by decide
    exact this _ hrow _ hx
  · rw [List.getD_eq_default _ _ ha] at hx
    simp at hx

lemma p_le9 (r x : Nat) : p r x ≤ 9 := by
  unfold p
  apply getD_le_nine
  intro y hy
  rcases Nat.lt_or_ge r pTable.length with hr | hr
  · rw [List.getD_eq_getElem _ _ hr] at hy
    have hrow : pTable[r] ∈ pTable := List.getElem_mem hr
    have : ∀ row ∈ pTable, ∀ y ∈ row, y ≤ 9 := by decide
    exact this _ hrow _ hy
  · rw [List.getD_eq_default _ _ hr] at hy
    simp at hy

lemma inv_le9 (c : Nat) : inv c ≤ 9 := by
  unfold inv
  exact getD_le_nine (by decide) c

lemma aux_le9 : ∀ (xs : List Nat) (c i : Nat), c ≤ 9 → verhoeffAux c i xs ≤ 9
  | [], _, _, hc => hc
  | _ :: xs, c, i, _ => aux_le9 xs _ (i + 1) (d_le9 c _)

lemma checksum_le9 (D : List Nat) : calculateChecksum D ≤ 9 := inv_le9 _

/-! ## Finite facts about the tables, checked by enumeration -/

lemma d_zero_right : ∀ a < 10, d a 0 = a := by decide

lemma d_zero_left : ∀ b < 10, d 0 b = b := by decide

lemma p_zero_id : ∀ x < 10, p 0 x = x := by decide

lemma d_assoc : ∀ a < 10, ∀ b < 10, ∀ y < 10, d (d a b) y = d a (d b y) := by decide

lemma d_left_inj : ∀ a < 10, ∀ y < 10, ∀ z < 10, d a y = d a z → y = z := by decide

lemma d_right_inj : ∀ a < 10, ∀ b < 10, ∀ y < 10, d a y = d b y → a = b := by decide

lemma p_inj : ∀ r < 8, ∀ x < 10, ∀ y < 10, p r x = p r y → x = y := by decide

lemma d_eq_zero_iff : ∀ x < 10, ∀ g < 10, (d x g = 0 ↔ x = inv g) := by decide

set_option maxHeartbeats 1600000 in
lemma transposition_key : ∀ c < 10, ∀ r < 8, ∀ a < 10, ∀ b < 10,
    d (d c (p r a)) (p ((r + 1) % 8) b) = d (d c (p r b)) (p ((r + 1) % 8) a) → a = b := by
  decide

/-! ## Structure of the fold -/

lemma aux_append (xs ys : List Nat) : ∀ c i,
    verhoeffAux c i (xs ++ ys) = verhoeffAux (verhoeffAux c i xs) (i + xs.length) ys := by
  induction xs with
  | nil => intro c i; simp [verhoeffAux]
  | cons x xs ih =>
      intro c i
      show verhoeffAux (d c (p (i % 8) x)) (i + 1) (xs ++ ys) = _
      rw [ih]
      simp [verhoeffAux, Nat.add_comm, Nat.add_assoc, Nat.add_left_comm]

lemma aux_hom (xs : List Nat) : ∀ i a b, a ≤ 9 → b ≤ 9 →
    verhoeffAux (d a b) i xs = d a (verhoeffAux b i xs) := by
  induction xs with
  | nil => intro i a b _ _; rfl
  | cons x xs ih =>
      intro i a b ha hb
      show verhoeffAux (d (d a b) (p (i % 8) x)) (i + 1) xs = _
      rw [d_assoc a (by omega) b (by omega) (p (i % 8) x) (by have := p_le9 (i % 8) x; omega)]
      rw [ih (i + 1) a (d b (p (i % 8) x)) ha (d_le9 _ _)]
      rfl

lemma aux_inj (xs : List Nat) : ∀ i a b, a ≤ 9 → b ≤ 9 →
    verhoeffAux a i xs = verhoeffAux b i xs → a = b := by
  induction xs with
  | nil => intro i a b _ _ h; exact h
  | cons x xs ih =>
      intro i a b ha hb h
      have hy : p (i % 8) x ≤ 9 := p_le9 _ _
      have hd := ih (i + 1) _ _ (d_le9 a _) (d_le9 b _) h
      exact d_right_inj a (by omega) b (by omega) (p (i % 8) x) (by omega) hd

/-! ## Validation of a sequence ending in its check digit -/

lemma validate_append_eq (D : List Nat) (x : Nat) (hx : x ≤ 9) :
    validateChecksum (D ++ [x]) = (x == calculateChecksum D) := by
  unfold validateChecksum calculateChecksum
  rw [if_neg (by simp)]
  have hrev : (D ++ [x]).reverse = x :: D.reverse := by simp
  rw [hrev]
  show (verhoeffAux (d 0 (p (0 % 8) x)) 1 D.reverse == 0) = _
  rw [Nat.zero_mod, p_zero_id x (by omega), d_zero_left x (by omega)]
  have hg : verhoeffAux 0 1 D.reverse ≤ 9 := aux_le9 _ _ _ (by omega)
  have hstep : verhoeffAux x 1 D.reverse = d x (verhoeffAux 0 1 D.reverse) := by
    have h0 : verhoeffAux (d x 0) 1 D.reverse = d x (verhoeffAux 0 1 D.reverse) :=
      aux_hom D.reverse 1 x 0 hx (by omega)
    rw [d_zero_right x (by omega)] at h0
    exact h0
  rw [hstep]
  rw [Bool.eq_iff_iff]
  simp only [beq_iff_eq]
  exact d_eq_zero_iff x (by omega) _ (by omega)

lemma validate_append_self (D : List Nat) :
    validateChecksum (D ++ [calculateChecksum D]) = true := by
  rw [validate_append_eq D _ (checksum_le9 D)]
  simp

/-! ## Error detection cores -/

lemma validate_middle (A B : List Nat) (x : Nat) :
    verhoeffAux 0 0 ((A ++ x :: B).reverse) =
      verhoeffAux (d (verhoeffAux 0 0 B.reverse) (p (B.length % 8) x))
        (B.length + 1) A.reverse := by
  have hrev : (A ++ x :: B).reverse = B.reverse ++ x :: A.reverse := by simp
  rw [hrev, aux_append]
  show verhoeffAux (d _ (p ((0 + B.reverse.length) % 8) x)) (0 + B.reverse.length + 1)
        A.reverse = _
  simp [List.length_reverse]

lemma validate_not_zero_of_ne (A B : List Nat) (a v : Nat) (ha : a ≤ 9) (hv : v ≤ 9)
    (hne : v ≠ a) (hval : validateChecksum (A ++ a :: B) = true) :
    validateChecksum (A ++ v :: B) = false := by
  unfold validateChecksum at hval ⊢
  rw [if_neg (by simp)] at hval ⊢
  rw [beq_iff_eq] at hval
  rw [validate_middle] at hval
  rw [Bool.eq_false_iff]
  intro habs
  rw [beq_iff_eq, validate_middle] at habs
  have hP : verhoeffAux 0 0 B.reverse ≤ 9 := aux_le9 _ _ _ (by omega)
  have h1 := aux_inj A.reverse (B.length + 1) _ _ (d_le9 _ _) (d_le9 _ _)
    (habs.trans hval.symm)
  have h2 := d_left_inj _ (by omega) _ (by have := p_le9 (B.length % 8) v; omega)
    _ (by have := p_le9 (B.length % 8) a; omega) h1
  have h3 := p_inj (B.length % 8) (Nat.mod_lt _ (by omega)) v (by omega) a (by omega) h2
  exact hne h3

set_option maxHeartbeats 1000000 in
lemma validate_swap_of_ne (A B : List Nat) (a b : Nat) (ha : a ≤ 9) (hb : b ≤ 9)
    (hne : a ≠ b) (hval : validateChecksum (A ++ a :: b :: B) = true) :
    validateChecksum (A ++ b :: a :: B) = false := by
  unfold validateChecksum at hval ⊢
  rw [if_neg (by simp)] at hval ⊢
  rw [beq_iff_eq] at hval
  rw [Bool.eq_false_iff]
  intro habs
  rw [beq_iff_eq] at habs
  have hone : ∀ y : Nat, verhoeffAux 0 0 ((y :: B).reverse) =
      d (verhoeffAux 0 0 B.reverse) (p (B.length % 8) y) := by
    intro y
    have h := validate_middle [] B y
    simpa [verhoeffAux] using h
  have hsplit : ∀ (x y : Nat), verhoeffAux 0 0 ((A ++ x :: y :: B).reverse) =
      verhoeffAux (d (d (verhoeffAux 0 0 B.reverse) (p (B.length % 8) y))
        (p ((B.length + 1) % 8) x)) (B.length + 2) A.reverse := by
    intro x y
    have h := validate_middle A (y :: B) x
    rw [hone y, List.length_cons] at h
    exact h
  rw [hsplit] at hval habs
  have hP : verhoeffAux 0 0 B.reverse ≤ 9 := aux_le9 _ _ _ (by omega)
  have h1 := aux_inj A.reverse (B.length + 2) _ _ (d_le9 _ _) (d_le9 _ _)
    (habs.trans hval.symm)
  have hmod : (B.length + 1) % 8 = (B.length % 8 + 1) % 8 := by
    conv_lhs => rw [← Nat.mod_add_mod]
  rw [hmod] at h1
  exact hne (transposition_key _ (by omega) _ (Nat.mod_lt _ (by omega)) a (by omega)
    b (by omega) h1)

/-- `(A ++ x :: C).set A.length v = A ++ v :: C`: setting the element just
past a known prefix. -/
lemma set_at_length (A : List Nat) (x v : Nat) (C : List Nat) :
    (A ++ x :: C).set A.length v = A ++ v :: C := by
  induction A with
  | nil => rfl
  | cons a A ih => simp [List.set, ih]

/-! ## Digit extraction lemmas -/

lemma charAtoi_le9 (c : Char) : charAtoi c ≤ 9 := by
  unfold charAtoi
  split <;> omega

lemma isUnicodeDigit_of_ascii {c : Char} (h : isAsciiDigit c = true) :
    isUnicodeDigit c = true := by
  unfold isAsciiDigit at h
  unfold isUnicodeDigit
  simp only [Bool.and_eq_true, decide_eq_true_eq] at h
  rw [if_pos (by omega)]
  simp only [Bool.and_eq_true, decide_eq_true_eq]
  omega

lemma stringToDigits_ok (s : List Char) (h : ∀ c ∈ s, isUnicodeDigit c = true) :
    stringToDigits s = Except.ok (s.map charAtoi) := by
  induction s with
  | nil => rfl
  | cons c cs ih =>
      have hc : isUnicodeDigit c = true := h c (by simp)
      have hcs := ih (fun x hx => h x (by simp [hx]))
      simp [stringToDigits, hc, hcs]

lemma stringToDigits_error_only : ∀ (s : List Char) (e : GoError),
    stringToDigits s = Except.error e → e = GoError.nonDigitChars := by
  intro s
  induction s with
  | nil => intro e h; simp [stringToDigits] at h
  | cons c cs ih =>
      intro e h
      by_cases hc : isUnicodeDigit c = true
      · rw [show stringToDigits (c :: cs) =
            (if isUnicodeDigit c then
              match stringToDigits cs with
              | Except.ok ds => Except.ok (charAtoi c :: ds)
              | Except.error e => Except.error e
            else Except.error GoError.nonDigitChars) from rfl, if_pos hc] at h
        cases hcs : stringToDigits cs with
        | ok ds => rw [hcs] at h; simp at h
        | error e2 =>
            rw [hcs] at h
            simp only [Except.error.injEq] at h
            exact h ▸ ih e2 hcs
      · rw [show stringToDigits (c :: cs) =
            (if isUnicodeDigit c then
              match stringToDigits cs with
              | Except.ok ds => Except.ok (charAtoi c :: ds)
              | Except.error e => Except.error e
            else Except.error GoError.nonDigitChars) from rfl, if_neg hc] at h
        simp only [Except.error.injEq] at h
        exact h.symm

lemma charAtoi_ofNat : ∀ k < 10, charAtoi (Char.ofNat (48 + k)) = k := by decide

lemma isAsciiDigit_ofNat : ∀ k < 10, isAsciiDigit (Char.ofNat (48 + k)) = true := by decide

lemma msf_zero : msfDigits 0 = [] := by
  rw [msfDigits]
  simp

lemma msf_step (m : Nat) (h : m ≠ 0) :
    msfDigits m = msfDigits (m / 10) ++ [m % 10] := by
  rw [msfDigits, dif_neg h]

lemma msf_le9 (m : Nat) : ∀ x ∈ msfDigits m, x ≤ 9 := by
  induction m using Nat.strong_induction_on with
  | _ m ih =>
      intro x hx
      rw [msfDigits] at hx
      by_cases hm : m = 0
      · simp [hm] at hx
      · rw [dif_neg hm] at hx
        rcases List.mem_append.mp hx with h1 | h1
        · exact ih (m / 10) (Nat.div_lt_self (Nat.pos_of_ne_zero hm) (by norm_num)) x h1
        · simp at h1
          omega

lemma msf_ne_nil (m : Nat) (hm : m ≠ 0) : msfDigits m ≠ [] := by
  rw [msfDigits, dif_neg hm]
  simp

lemma itoaNat_eq_map_msf (m : Nat) (hm : m ≠ 0) :
    itoaNat m = (msfDigits m).map (fun k => Char.ofNat (48 + k)) := by
  induction m using Nat.strong_induction_on with
  | _ m ih =>
      rw [itoaNat, msfDigits, dif_neg hm]
      by_cases hlt : m < 10
      · rw [if_pos hlt]
        have h10 : m / 10 = 0 := Nat.div_eq_of_lt hlt
        have hmod : m % 10 = m := Nat.mod_eq_of_lt hlt
        rw [h10, hmod, msf_zero]
        rfl
      · rw [if_neg hlt]
        have hne : m / 10 ≠ 0 := by
          intro h0
          rw [Nat.div_eq_zero_iff (by norm_num)] at h0
          exact hlt h0
        rw [ih (m / 10) (Nat.div_lt_self (Nat.pos_of_ne_zero hm) (by norm_num)) hne]
        simp

lemma itoaNat_ascii (m : Nat) : ∀ c ∈ itoaNat m, isAsciiDigit c = true := by
  induction m using Nat.strong_induction_on with
  | _ m ih =>
      intro c hc
      rw [itoaNat] at hc
      by_cases hlt : m < 10
      · rw [if_pos hlt] at hc
        simp at hc
        exact hc ▸ isAsciiDigit_ofNat m hlt
      · rw [if_neg hlt] at hc
        rcases List.mem_append.mp hc with h1 | h1
        · exact ih (m / 10) (Nat.div_lt_self (by omega) (by norm_num)) c h1
        · simp at h1
          exact h1 ▸ isAsciiDigit_ofNat (m % 10) (Nat.mod_lt _ (by norm_num))

lemma map_charAtoi_ofNat (ds : List Nat) (h : ∀ x ∈ ds, x ≤ 9) :
    (ds.map (fun k => Char.ofNat (48 + k))).map charAtoi = ds := by
  induction ds with
  | nil => rfl
  | cons x xs ih =>
      simp only [List.map_cons, List.cons.injEq]
      constructor
      · exact charAtoi_ofNat x (by have := h x (by simp); omega)
      · exact ih (fun y hy => h y (by simp [hy]))

lemma stringToDigits_itoaNat (m : Nat) (hm : m ≠ 0) :
    stringToDigits (itoaNat m) = Except.ok (msfDigits m) := by
  rw [itoaNat_eq_map_msf m hm]
  rw [stringToDigits_ok]
  · rw [map_charAtoi_ofNat _ (msf_le9 m)]
  · intro c hc
    rcases List.mem_map.mp hc with ⟨k, hk, rfl⟩
    have hk9 : k ≤ 9 := msf_le9 m k hk
    exact isUnicodeDigit_of_ascii (isAsciiDigit_ofNat k (by omega))

lemma itoaNat_single : ∀ m < 10, itoaNat m = [Char.ofNat (48 + m)] := by
  intro m hm
  rw [itoaNat, if_pos hm]

lemma utf8Size_ascii (c : Char) (h : c.toNat ≤ 57) : c.utf8Size = 1 := by
  have hle : c.val ≤ UInt32.ofNatCore 127 Char.utf8Size.proof_1 :=
    Nat.le_trans h (by decide)
  show (let v := c.val;
    if v ≤ UInt32.ofNatCore 127 Char.utf8Size.proof_1 then 1
    else
      if v ≤ UInt32.ofNatCore 2047 Char.utf8Size.proof_2 then 2
      else if v ≤ UInt32.ofNatCore 65535 Char.utf8Size.proof_3 then 3 else 4) = 1
  rw [if_pos hle]

lemma goStrLen_ascii (s : List Char) (h : ∀ c ∈ s, isAsciiDigit c = true) :
    goStrLen s = s.length := by
  induction s with
  | nil => rfl
  | cons c cs ih =>
      have hc : isAsciiDigit c = true := h c (by simp)
      have h1 : c.utf8Size = 1 := by
        unfold isAsciiDigit at hc
        simp only [Bool.and_eq_true, decide_eq_true_eq] at hc
        exact utf8Size_ascii c hc.2
      show c.utf8Size + goStrLen cs = cs.length + 1
      rw [h1, ih (fun x hx => h x (by simp [hx]))]
      omega

/-! ## Integer digit lemmas -/

lemma intToDigits_nonneg (n : Int) (h0 : 0 ≤ n) (hne : n ≠ 0) :
    intToDigits n = msfDigits n.toNat := by
  unfold intToDigits
  rw [if_neg hne, if_neg (by omega)]

lemma stringToDigits_itoaInt (n : Int) (h : 0 ≤ n) :
    stringToDigits (itoaInt n) = Except.ok (intToDigits n) := by
  unfold itoaInt
  rw [if_neg (by omega)]
  by_cases hz : n = 0
  · subst hz
    rw [show (0 : Int).toNat = 0 from rfl, itoaNat_single 0 (by norm_num)]
    rw [stringToDigits_ok _ (by
      intro c hc
      simp only [List.mem_singleton] at hc
      exact hc ▸ isUnicodeDigit_of_ascii (isAsciiDigit_ofNat 0 (by norm_num)))]
    simp only [List.map_cons, List.map_nil]
    rw [charAtoi_ofNat 0 (by norm_num)]
    rfl
  · have htn : n.toNat ≠ 0 := by omega
    rw [stringToDigits_itoaNat _ htn, intToDigits_nonneg n h hz]

lemma itoaInt_ascii (n : Int) (h : 0 ≤ n) :
    ∀ c ∈ itoaInt n, isAsciiDigit c = true := by
  unfold itoaInt
  rw [if_neg (by omega)]
  exact itoaNat_ascii n.toNat

/-- The source's most-significant-first digit loop agrees with the
mathematical decimal expansion `Nat.digits 10`. -/
lemma msf_eq_digits (m : Nat) : msfDigits m = (Nat.digits 10 m).reverse := by
  induction m using Nat.strong_induction_on with
  | _ m ih =>
      by_cases hm : m = 0
      · subst hm
        rw [msf_zero, Nat.digits_zero]
        rfl
      · rw [msfDigits, dif_neg hm]
        rw [Nat.digits_def' (by norm_num : (1:Nat) < 10) (Nat.pos_of_ne_zero hm)]
        rw [List.reverse_cons]
        rw [ih (m / 10) (Nat.div_lt_self (Nat.pos_of_ne_zero hm) (by norm_num))]

lemma aux_eq_zipVal (R : List Nat) : ∀ i c, verhoeffAux c i R =
    ((List.range' i R.length).zip R).foldl (fun acc ix => d acc (p (ix.1 % 8) ix.2)) c := by
  induction R with
  | nil => intro i c; rfl
  | cons x xs ih =>
      intro i c
      rw [List.length_cons, List.range'_succ]
      show verhoeffAux (d c (p (i % 8) x)) (i + 1) xs = _
      rw [ih (i + 1)]
      rfl

lemma aux_eq_zipGen (R : List Nat) : ∀ i c, verhoeffAux c (i + 1) R =
    ((List.range' i R.length).zip R).foldl (fun acc ix => d acc (p ((ix.1 + 1) % 8) ix.2)) c := by
  induction R with
  | nil => intro i c; rfl
  | cons x xs ih =>
      intro i c
      rw [List.length_cons, List.range'_succ]
      show verhoeffAux (d c (p ((i + 1) % 8) x)) (i + 1 + 1) xs = _
      rw [ih (i + 1)]
      rfl

/-! ## General error-detection lemmas, stated by position -/

lemma set_at_length' (A : List Nat) (x v : Nat) (C : List Nat) (i : Nat)
    (h : i = A.length) : (A ++ x :: C).set i v = A ++ v :: C := by
  subst h
  exact set_at_length A x v C

lemma validate_set_general (full : List Nat) (hfull9 : ∀ x ∈ full, x ≤ 9)
    (hval : validateChecksum full = true) (i v : Nat) (hi : i < full.length)
    (hv : v ≤ 9) (hne : v ≠ full.getD i 0) :
    validateChecksum (full.set i v) = false := by
  have hdecomp : full = full.take i ++ full.getD i 0 :: full.drop (i + 1) := by
    conv_lhs => rw [← List.take_append_drop i full]
    rw [List.drop_eq_getElem_cons hi]
    rw [(List.getD_eq_getElem full 0 hi).symm]
  have hlen : (full.take i).length = i := by rw [List.length_take]; omega
  have hset : full.set i v = full.take i ++ v :: full.drop (i + 1) := by
    conv_lhs => rw [hdecomp]
    exact set_at_length' _ _ _ _ _ hlen.symm
  rw [hset]
  apply validate_not_zero_of_ne _ _ _ _ (getD_le_nine hfull9 i) hv hne
  rw [← hdecomp]
  exact hval

lemma validate_swap_general (full : List Nat) (hfull9 : ∀ x ∈ full, x ≤ 9)
    (hval : validateChecksum full = true) (i : Nat) (hi : i + 1 < full.length)
    (hne : full.getD i 0 ≠ full.getD (i + 1) 0) :
    validateChecksum ((full.set i (full.getD (i + 1) 0)).set (i + 1)
      (full.getD i 0)) = false := by
  have hi' : i < full.length := by omega
  have ha9 : full.getD i 0 ≤ 9 := getD_le_nine hfull9 i
  have hb9 : full.getD (i + 1) 0 ≤ 9 := getD_le_nine hfull9 (i + 1)
  obtain ⟨a, hadef⟩ : ∃ x, full.getD i 0 = x := ⟨_, rfl⟩
  obtain ⟨b, hbdef⟩ : ∃ x, full.getD (i + 1) 0 = x := ⟨_, rfl⟩
  rw [hadef] at ha9 hne ⊢
  rw [hbdef] at hb9 hne ⊢
  have hdecomp : full = full.take i ++ a :: b :: full.drop (i + 2) := by
    conv_lhs => rw [← List.take_append_drop i full]
    rw [List.drop_eq_getElem_cons hi']
    rw [List.drop_eq_getElem_cons hi]
    rw [(List.getD_eq_getElem full 0 hi').symm]
    rw [(List.getD_eq_getElem full 0 hi).symm]
    rw [hadef, hbdef]
  have hlen : (full.take i).length = i := by rw [List.length_take]; omega
  have hset1 : full.set i b = full.take i ++ b :: b :: full.drop (i + 2) := by
    conv_lhs => rw [hdecomp]
    exact set_at_length' _ _ _ _ _ hlen.symm
  have hlen2 : (full.take i ++ [b]).length = i + 1 := by simp [hlen]
  have hset2 : (full.take i ++ b :: b :: full.drop (i + 2)).set (i + 1) a =
      full.take i ++ b :: a :: full.drop (i + 2) := by
    have hassoc : full.take i ++ b :: b :: full.drop (i + 2) =
        (full.take i ++ [b]) ++ b :: full.drop (i + 2) := by
      rw [List.append_assoc]
      rfl
    rw [hassoc, set_at_length' _ _ _ _ _ hlen2.symm, List.append_assoc]
    rfl
  rw [hset1, hset2]
  apply validate_swap_of_ne _ _ _ _ ha9 hb9 hne
  rw [← hdecomp]
  exact hval

/-! ## Claim theorems -/

/-- C1: for every digit sequence `D` (each element in `[0,9]`, possibly
empty), `calculateChecksum` returns `inv[c]`, where `c` is obtained by
folding `c = d[c][p[(i+1) mod 8][R[i]]]` over `R = reverse D` starting
from `c = 0`, and the result is a single digit in `[0,9]`. -/
theorem calculateChecksum_matches_spec (D : List Nat) (hD : ∀ x ∈ D, x ≤ 9) :
    calculateChecksum D = inv (specFoldGen D.reverse) ∧ calculateChecksum D ≤ 9 := by
  constructor
  · unfold calculateChecksum specFoldGen
    rw [List.range_eq_range']
    exact congrArg inv (aux_eq_zipGen D.reverse 0 0)
  · exact checksum_le9 D

/-- Witness for C1 at the concrete sequence `[2, 3, 6]`. -/
theorem calculateChecksum_matches_spec_witness :
    calculateChecksum [2, 3, 6] = inv (specFoldGen (List.reverse [2, 3, 6])) ∧
    calculateChecksum [2, 3, 6] ≤ 9 :=
  calculateChecksum_matches_spec [2, 3, 6] (by decide)

/-- C2: for every non-empty digit sequence `D` (each element in `[0,9]`),
`validateChecksum` returns `true` iff folding `c = d[c][p[i mod 8][R[i]]]`
over `R = reverse D` from `c = 0` (no `+1` offset) ends with `c = 0`. -/
theorem validateChecksum_matches_spec (D : List Nat) (hne : D ≠ [])
    (hD : ∀ x ∈ D, x ≤ 9) :
    validateChecksum D = true ↔ specFoldVal D.reverse = 0 := by
  unfold validateChecksum specFoldVal
  rw [if_neg (by simpa using hne)]
  rw [List.range_eq_range']
  rw [show verhoeffAux 0 0 D.reverse = _ from aux_eq_zipVal D.reverse 0 0]
  exact beq_iff_eq

/-- Witness for C2 at the concrete sequence `[2, 3, 6, 3]`. -/
theorem validateChecksum_matches_spec_witness :
    validateChecksum [2, 3, 6, 3] = true ↔ specFoldVal (List.reverse [2, 3, 6, 3]) = 0 :=
  validateChecksum_matches_spec [2, 3, 6, 3] (by decide) (by decide)

/-- C4: for every digit sequence `D` with its check digit appended to form
`full`, replacing any single position of `full` by a different digit makes
validation return `false`. -/
theorem single_digit_error_detected (D : List Nat) (hD : ∀ x ∈ D, x ≤ 9)
    (i v : Nat) (hi : i < (D ++ [calculateChecksum D]).length) (hv : v ≤ 9)
    (hne : v ≠ (D ++ [calculateChecksum D]).getD i 0) :
    validateChecksum ((D ++ [calculateChecksum D]).set i v) = false := by
  apply validate_set_general _ ?_ (validate_append_self D) i v hi hv hne
  intro x hx
  rcases List.mem_append.mp hx with h1 | h1
  · exact hD x h1
  · simp only [List.mem_singleton] at h1
    exact h1 ▸ checksum_le9 D

/-- Witness for C4: corrupting position 0 of `[2,3,6] ++ [3]` to 5 is
caught. -/
theorem single_digit_error_detected_witness :
    validateChecksum (([2, 3, 6] ++ [calculateChecksum [2, 3, 6]]).set 0 5) = false :=
  single_digit_error_detected [2, 3, 6] (by decide) 0 5 (by decide) (by decide) (by decide)

/-- C5: for every digit sequence `D` with its check digit appended to form
`full`, swapping any two adjacent unequal digits of `full` makes
validation return `false`. -/
theorem adjacent_transposition_detected (D : List Nat) (hD : ∀ x ∈ D, x ≤ 9)
    (i : Nat) (hi : i + 1 < (D ++ [calculateChecksum D]).length)
    (hne : (D ++ [calculateChecksum D]).getD i 0 ≠
      (D ++ [calculateChecksum D]).getD (i + 1) 0) :
    validateChecksum (((D ++ [calculateChecksum D]).set i
      ((D ++ [calculateChecksum D]).getD (i + 1) 0)).set (i + 1)
      ((D ++ [calculateChecksum D]).getD i 0)) = false := by
  apply validate_swap_general _ ?_ (validate_append_self D) i hi hne
  intro x hx
  rcases List.mem_append.mp hx with h1 | h1
  · exact hD x h1
  · simp only [List.mem_singleton] at h1
    exact h1 ▸ checksum_le9 D

/-- Witness for C5: swapping the unequal adjacent digits at positions 0
and 1 of `[2,3,6] ++ [3]` is caught. -/
theorem adjacent_transposition_detected_witness :
    validateChecksum ((([2, 3, 6] ++ [calculateChecksum [2, 3, 6]]).set 0
      (([2, 3, 6] ++ [calculateChecksum [2, 3, 6]]).getD 1 0)).set 1
      (([2, 3, 6] ++ [calculateChecksum [2, 3, 6]]).getD 0 0)) = false :=
  adjacent_transposition_detected [2, 3, 6] (by decide) 0 (by decide) (by decide)

/-- C8: generation on the empty input succeeds with digit 0, while
validation on the empty string or empty slice fails with the
empty-input error. -/
theorem empty_input_contract :
    GenerateFromString [] = Except.ok 0 ∧
    ValidateString [] = Except.error GoError.emptyInput ∧
    ValidateSlice [] = Except.error GoError.emptyInput :=
  ⟨rfl, rfl, rfl⟩

/-- C6 counterexample: the Arabic-Indic digit three (U+0663) is not a
decimal digit character `0`-`9`, yet `stringToDigits` does not fail on it:
it accepts the character and yields 0 (the discarded-`Atoi`-error path)
rather than its numeric value 3. -/
theorem stringToDigits_nonAscii_cex :
    stringToDigits [Char.ofNat 1635] = Except.ok [0] ∧
    isAsciiDigit (Char.ofNat 1635) = false := by
  constructor
  · decide
  · decide

/-- C6 (amended): `stringToDigits` fails with the malformed-input error
iff some character is not a Unicode decimal digit (category Nd, Go's
`unicode.IsDigit`); otherwise it yields one value per character in order:
ASCII digits map to their numeric value 0-9, any other decimal digit maps
to 0 because the `strconv.Atoi` conversion error is discarded. -/
theorem stringToDigits_characterization (s : List Char) :
    (stringToDigits s = Except.error GoError.nonDigitChars ↔
      ∃ c ∈ s, isUnicodeDigit c = false) ∧
    ((∀ c ∈ s, isUnicodeDigit c = true) →
      stringToDigits s = Except.ok (s.map charAtoi)) := by
  refine ⟨?_, stringToDigits_ok s⟩
  induction s with
  | nil =>
      constructor
      · intro h
        simp [stringToDigits] at h
      · rintro ⟨c, hc, _⟩
        simp at hc
  | cons c cs ih =>
      have hunf : stringToDigits (c :: cs) =
          (if isUnicodeDigit c then
            match stringToDigits cs with
            | Except.ok ds => Except.ok (charAtoi c :: ds)
            | Except.error e => Except.error e
          else Except.error GoError.nonDigitChars) := rfl
      by_cases hc : isUnicodeDigit c = true
      · constructor
        · intro h
          rw [hunf, if_pos hc] at h
          cases hcs : stringToDigits cs with
          | ok ds => rw [hcs] at h; simp at h
          | error e =>
              have he : e = GoError.nonDigitChars := stringToDigits_error_only cs e hcs
              subst he
              rcases ih.mp hcs with ⟨x, hx, hxd⟩
              exact ⟨x, List.mem_cons_of_mem c hx, hxd⟩
        · rintro ⟨x, hx, hxd⟩
          rcases List.mem_cons.mp hx with rfl | hx'
          · rw [hc] at hxd
            cases hxd
          · rw [hunf, if_pos hc, ih.mpr ⟨x, hx', hxd⟩]
      · constructor
        · intro _
          exact ⟨c, List.mem_cons_self c cs, by simpa using hc⟩
        · intro _
          rw [hunf, if_neg hc]

/-- Witness for the amended C6: `"7"` is all decimal digits, so extraction
succeeds with the mapped values. -/
theorem stringToDigits_characterization_witness :
    stringToDigits ['7'] = Except.ok (List.map charAtoi ['7']) :=
  (stringToDigits_characterization ['7']).2 (by decide)

/-- For a non-empty all-digit sequence, comparing the last digit against
the checksum of the rest (what `ValidateAadhaar` does) coincides with the
full validation fold (what `validateChecksum` does). -/
lemma validate_eq_last_check (ds : List Nat) (h9 : ∀ x ∈ ds, x ≤ 9)
    (hne : ds ≠ []) :
    (ds.getD (ds.length - 1) 0 == calculateChecksum (ds.take (ds.length - 1))) =
      validateChecksum ds := by
  have hlen : 0 < ds.length := List.length_pos.mpr hne
  have hi : ds.length - 1 < ds.length := by omega
  have hdecomp : ds = ds.take (ds.length - 1) ++ [ds.getD (ds.length - 1) 0] := by
    conv_lhs => rw [← List.take_append_drop (ds.length - 1) ds]
    rw [List.drop_eq_getElem_cons hi]
    rw [show ds.length - 1 + 1 = ds.length from by omega]
    rw [List.drop_length]
    rw [(List.getD_eq_getElem ds 0 hi).symm]
  conv_rhs => rw [hdecomp]
  rw [validate_append_eq _ _ (getD_le_nine h9 _)]

/-- C7: on a string of exactly 12 decimal digit characters,
`ValidateAadhaar` returns, without error, the same boolean as
`ValidateString`. -/
theorem validateAadhaar_delegates (s : List Char)
    (hs : ∀ c ∈ s, isAsciiDigit c = true) (hlen : s.length = 12) :
    ValidateAadhaar s = ValidateString s := by
  have hglen : goStrLen s = 12 := by rw [goStrLen_ascii s hs, hlen]
  have hsd : stringToDigits s = Except.ok (s.map charAtoi) :=
    stringToDigits_ok s (fun c hc => isUnicodeDigit_of_ascii (hs c hc))
  have hdslen : (s.map charAtoi).length = 12 := by
    rw [List.length_map, hlen]
  have h9 : ∀ x ∈ s.map charAtoi, x ≤ 9 := by
    intro x hx
    rcases List.mem_map.mp hx with ⟨c, _, rfl⟩
    exact charAtoi_le9 c
  unfold ValidateAadhaar ValidateString
  rw [if_neg (by simp [hglen]), hsd]
  dsimp only
  rw [if_neg (by omega)]
  rw [validate_eq_last_check _ h9 (by
    intro habs
    rw [habs] at hdslen
    simp at hdslen)]

/-- Witness for C7: the 12-digit Aadhaar example from the repository's
README. -/
theorem validateAadhaar_delegates_witness :
    ValidateAadhaar ['4', '9', '6', '8', '5', '8', '2', '4', '5', '1', '5', '2'] =
      ValidateString ['4', '9', '6', '8', '5', '8', '2', '4', '5', '1', '5', '2'] :=
  validateAadhaar_delegates _ (by decide) (by decide)

/-- C9 counterexample: six Arabic-Indic digit-three characters (U+0663, two
UTF-8 bytes each) have character length 6 (and contain no digit `0`-`9`
at all), yet `ValidateAadhaar` does not fail with the length error: the
12-byte input passes the `len` gate and validation returns a boolean. -/
theorem validateAadhaar_charlen_cex :
    (List.replicate 6 (Char.ofNat 1635)).length ≠ 12 ∧
    ValidateAadhaar (List.replicate 6 (Char.ofNat 1635)) = Except.ok false := by
  constructor
  · decide
  · decide

/-- C9 (amended): `ValidateAadhaar` fails with the length error exactly
when the UTF-8 byte length (Go's `len`) of the input is not 12; the check
happens before any digit extraction. -/
theorem validateAadhaar_length_gate (s : List Char) (h : goStrLen s ≠ 12) :
    ValidateAadhaar s = Except.error GoError.aadhaarLength := by
  unfold ValidateAadhaar
  rw [if_pos h]

/-- Witness for the amended C9: a one-byte input is rejected with the
length error. -/
theorem validateAadhaar_length_gate_witness :
    ValidateAadhaar ['1'] = Except.error GoError.aadhaarLength :=
  validateAadhaar_length_gate ['1'] (by decide)

/-- C10 (amended): for every negative 64-bit integer except the minimum
value `-2^63`, digit extraction takes the absolute value, so
`GenerateInt n = GenerateInt (-n)` (likewise `GenerateInt64`) and the
result is the checksum of the decimal digits of `|n|`. -/
theorem generateInt_neg_abs (n : Int) (hlo : -(2 ^ 63) < n) (hn : n < 0) :
    GenerateInt n = GenerateInt (-n) ∧ GenerateInt64 n = GenerateInt64 (-n) ∧
    GenerateInt n = calculateChecksum ((Nat.digits 10 n.natAbs).reverse) := by
  have hw : wrapNeg64 n = -n := by
    unfold wrapNeg64
    rw [if_neg (by omega)]
  have hnt : (-n).toNat = n.natAbs := by omega
  have h1 : intToDigits n = msfDigits n.natAbs := by
    unfold intToDigits
    rw [if_neg (by omega), if_pos hn, hw, hnt]
  have h2 : intToDigits (-n) = msfDigits n.natAbs := by
    unfold intToDigits
    rw [if_neg (by omega), if_neg (by omega), hnt]
  have h3 : int64ToDigits n = msfDigits n.natAbs := by
    unfold int64ToDigits
    rw [if_neg (by omega), if_pos hn, hw, hnt]
  have h4 : int64ToDigits (-n) = msfDigits n.natAbs := by
    unfold int64ToDigits
    rw [if_neg (by omega), if_neg (by omega), hnt]
  refine ⟨?_, ?_, ?_⟩
  · unfold GenerateInt
    rw [h1, h2]
  · unfold GenerateInt64
    rw [h3, h4]
  · unfold GenerateInt
    rw [h1, msf_eq_digits]

/-- Witness for the amended C10 at `n = -236`. -/
theorem generateInt_neg_abs_witness :
    GenerateInt (-236) = GenerateInt (-(-236)) ∧
    GenerateInt64 (-236) = GenerateInt64 (-(-236)) ∧
    GenerateInt (-236) = calculateChecksum ((Nat.digits 10 (Int.natAbs (-236))).reverse) :=
  generateInt_neg_abs (-236) (by norm_num) (by norm_num)

/-- C10 counterexample at the minimum 64-bit integer: Go's `n = -n` wraps,
the digit loop sees a negative value and produces no digits, so
`GenerateInt (-2^63)` is the checksum of the empty sequence (0), not the
checksum of the decimal digits of `2^63` (which is 8), and it differs from
`GenerateInt` of the mathematical negation. -/
theorem generateInt_minint_cex :
    GenerateInt (-(2 ^ 63)) ≠
      calculateChecksum ((Nat.digits 10 (Int.natAbs (-(2 ^ 63)))).reverse) ∧
    GenerateInt (-(2 ^ 63)) ≠ GenerateInt (-(-(2 ^ 63))) := by
  have hgen : GenerateInt (-(2 ^ 63)) = 0 := by
    unfold GenerateInt intToDigits wrapNeg64
    rw [if_neg (by norm_num), if_pos (by norm_num), if_pos (by norm_num)]
    rw [show ((-(-(2 ^ 63)) - 2 ^ 64 : Int)).toNat = 0 from by norm_num]
    rw [msf_zero]
    rfl
  have habs : Int.natAbs (-(2 ^ 63)) = 9223372036854775808 := by norm_num
  have hdig : msfDigits 9223372036854775808 =
      [9, 2, 2, 3, 3, 7, 2, 0, 3, 6, 8, 5, 4, 7, 7, 5, 8, 0, 8] := by
    simp (disch := norm_num) only [msf_step, Nat.reduceDiv, Nat.reduceMod]
    simp [msf_zero]
  have hck : calculateChecksum
      [9, 2, 2, 3, 3, 7, 2, 0, 3, 6, 8, 5, 4, 7, 7, 5, 8, 0, 8] = 8 := by decide
  constructor
  · rw [hgen, habs, ← msf_eq_digits, hdig, hck]
    norm_num
  · have h2 : GenerateInt (-(-(2 ^ 63))) = 8 := by
      rw [show (-(-(2 ^ 63)) : Int) = 9223372036854775808 from by norm_num]
      unfold GenerateInt
      rw [intToDigits_nonneg _ (by norm_num) (by norm_num)]
      rw [show ((9223372036854775808 : Int)).toNat = 9223372036854775808 from rfl]
      rw [hdig, hck]
    rw [hgen, h2]
    norm_num

/-- C3: validating the result of appending the generated check digit
succeeds and returns `true`, both for a string of decimal digit
characters (possibly empty) and for a non-negative 64-bit integer. -/
theorem roundtrip_validate (s : List Char) (hs : ∀ c ∈ s, isAsciiDigit c = true)
    (n : Int) (h0 : 0 ≤ n) (h64 : n < 2 ^ 63) :
    (∃ t, AppendChecksumString s = Except.ok t ∧ ValidateString t = Except.ok true) ∧
    ValidateString (AppendChecksumInt n) = Except.ok true := by
  constructor
  · have hsuni : ∀ c ∈ s, isUnicodeDigit c = true :=
      fun c hc => isUnicodeDigit_of_ascii (hs c hc)
    have hsd : stringToDigits s = Except.ok (s.map charAtoi) := stringToDigits_ok s hsuni
    have hcs9 : calculateChecksum (s.map charAtoi) ≤ 9 := checksum_le9 _
    have happ : AppendChecksumString s =
        Except.ok (s ++ itoaNat (calculateChecksum (s.map charAtoi))) := by
      unfold AppendChecksumString GenerateFromString
      rw [hsd]
    have hitoa : itoaNat (calculateChecksum (s.map charAtoi)) =
        [Char.ofNat (48 + calculateChecksum (s.map charAtoi))] :=
      itoaNat_single _ (by omega)
    have hts : stringToDigits (s ++ itoaNat (calculateChecksum (s.map charAtoi))) =
        Except.ok (s.map charAtoi ++ [calculateChecksum (s.map charAtoi)]) := by
      rw [hitoa]
      rw [stringToDigits_ok _ (by
        intro c hc
        rcases List.mem_append.mp hc with h1 | h1
        · exact hsuni c h1
        · simp only [List.mem_singleton] at h1
          exact h1 ▸ isUnicodeDigit_of_ascii (isAsciiDigit_ofNat _ (by omega)))]
      simp only [List.map_append, List.map_cons, List.map_nil]
      rw [charAtoi_ofNat _ (by omega)]
    refine ⟨_, happ, ?_⟩
    unfold ValidateString
    rw [hts]
    dsimp only
    rw [if_neg (by simp), validate_append_self]
  · have h9 : GenerateInt n ≤ 9 := checksum_le9 (intToDigits n)
    have ha2 : ∀ c ∈ itoaInt n, isUnicodeDigit c = true :=
      fun c hc => isUnicodeDigit_of_ascii (itoaInt_ascii n h0 c hc)
    have hmap : (itoaInt n).map charAtoi = intToDigits n := by
      have hok := stringToDigits_ok (itoaInt n) ha2
      rw [stringToDigits_itoaInt n h0] at hok
      injection hok with hok
      exact hok.symm
    have hts2 : stringToDigits (AppendChecksumInt n) =
        Except.ok (intToDigits n ++ [GenerateInt n]) := by
      unfold AppendChecksumInt
      rw [itoaNat_single (GenerateInt n) (by omega)]
      rw [stringToDigits_ok _ (by
        intro c hc
        rcases List.mem_append.mp hc with h1 | h1
        · exact ha2 c h1
        · simp only [List.mem_singleton] at h1
          exact h1 ▸ isUnicodeDigit_of_ascii (isAsciiDigit_ofNat _ (by omega)))]
      simp only [List.map_append, List.map_cons, List.map_nil]
      rw [hmap, charAtoi_ofNat _ (by omega)]
    have hne2 : intToDigits n ≠ [] := by
      by_cases hz : n = 0
      · simp [intToDigits, hz]
      · rw [intToDigits_nonneg n h0 hz]
        exact msf_ne_nil _ (by omega)
    unfold ValidateString
    rw [hts2]
    dsimp only
    rw [if_neg (by simp)]
    unfold GenerateInt
    rw [validate_append_self]

/-- Witness for C3 at `s = "236"` and `n = 236`. -/
theorem roundtrip_validate_witness :
    ((∃ t, AppendChecksumString ['2', '3', '6'] = Except.ok t ∧
        ValidateString t = Except.ok true) ∧
      ValidateString (AppendChecksumInt 236) = Except.ok true) :=
  roundtrip_validate ['2', '3', '6'] (by decide) 236 (by norm_num) (by norm_num)

end Verhoeff
